import Mathlib

/-!
Verification development for the `summarize-for-obsidian` plugin.

The TypeScript sources are shallowly embedded: JavaScript strings become
`List Char`, network and DOM/library effects become explicit oracle records
(`Net`, `StreamNet`, per-model response tables), and thrown exceptions become
`Except` values carrying the thrown message.  All control flow, string
manipulation and classification logic of the plugin itself is translated
directly from the source files
(`test/cli-test.ts` for the content extractor with link following,
`src/services/llm-service.ts` for the completion client,
`src/actions/summarize.ts` for the streaming action layer).
-/

namespace Summarize

/-- JavaScript strings are embedded as lists of characters. -/
abbrev Str := List Char

end Summarize

deriving instance DecidableEq for Except

namespace Summarize

/-! ## Basic JavaScript string operations -/

/-- ASCII whitespace as matched by JavaScript `\s` / `trim` (the Unicode
space classes are irrelevant to every input appearing in the sources). -/
def isWsChar (c : Char) : Bool :=
  c = ' ' || c = '\t' || c = '\n' || c = '\r' || c = '\x0b' || c = '\x0c'

/-- Leading-whitespace removal (`trimStart`). -/
def trimLeft (s : Str) : Str := s.dropWhile isWsChar

/-- Trailing-whitespace removal (`trimEnd`). -/
def trimRight (s : Str) : Str := (s.reverse.dropWhile isWsChar).reverse

/-- JavaScript `String.prototype.trim`. -/
def trim (s : Str) : Str := trimRight (trimLeft s)

/-- The maximal whitespace-separated tokens of a string: the result of
`s.trim().split(/\s+/).filter(Boolean)` in the sources.  (A non-whitespace
character either starts a fresh token — at the end of the string or before
whitespace-led remainder — or extends the first token of the remainder.) -/
def wsTokens : Str → List Str
  | [] => []
  | c :: cs =>
    if isWsChar c then wsTokens cs
    else
      match cs with
      | [] => [[c]]
      | d :: _ =>
        if isWsChar d then [c] :: wsTokens cs
        else
          match wsTokens cs with
          | [] => [[c]]
          | t :: ts => (c :: t) :: ts

/-- `countWords` from `cli-test.ts` / `content-extractor.ts`:
`text.trim().split(/\s+/).filter(Boolean).length`. -/
def countWords (text : Str) : Nat := (wsTokens (trim text)).length

/-- JavaScript `String.prototype.split` with a one-character separator
(`n` separators yield `n + 1` parts). -/
def splitChar (sep : Char) : Str → List Str
  | [] => [[]]
  | c :: cs =>
    if c = sep then [] :: splitChar sep cs
    else
      match splitChar sep cs with
      | [] => [[c]]
      | t :: ts => (c :: t) :: ts

/-- Joining line lists back with `\n` (inverse of `splitChar '\n'`). -/
def joinLines (ls : List Str) : Str := List.intercalate ['\n'] ls

/-- ASCII lower-casing of one character (`String.prototype.toLowerCase`;
all patterns matched in the sources are ASCII). -/
def lowerChar (c : Char) : Char :=
  if 'A' ≤ c ∧ c ≤ 'Z' then Char.ofNat (c.toNat + 32) else c

/-- JavaScript `String.prototype.toLowerCase`. -/
def toLowerStr (s : Str) : Str := s.map lowerChar

/-- JavaScript `String.prototype.startsWith`. -/
def startsWithStr (pat s : Str) : Bool := List.isPrefixOf pat s

/-- JavaScript `String.prototype.endsWith`. -/
def endsWithStr (pat s : Str) : Bool := List.isSuffixOf pat s

/-- JavaScript `String.prototype.includes`: substring occurrence. -/
def containsStr (s pat : Str) : Bool := decide (pat <:+: s)

/-- Split at the first occurrence of `pat`, returning the parts before and
after it (`none` when `pat` does not occur). -/
def splitOnFirst (s pat : Str) : Option (Str × Str) :=
  match s with
  | [] => if pat = [] then some ([], []) else none
  | c :: cs =>
    if List.isPrefixOf pat (c :: cs) then some ([], (c :: cs).drop pat.length)
    else
      match splitOnFirst cs pat with
      | some (pre, post) => some (c :: pre, post)
      | none => none

/-- JavaScript `String.prototype.replace` with a string pattern: replaces
only the first occurrence, and returns the string unchanged when absent. -/
def replaceFirst (s pat rep : Str) : Str :=
  match splitOnFirst s pat with
  | some (pre, post) => pre ++ rep ++ post
  | none => s

/-- Decimal rendering of a number, as interpolated by template literals. -/
def natStr (n : Nat) : Str := (Nat.repr n).data

/-! ## URL model

The sources parse URLs with the WHATWG `new URL(...)` constructor and read
only `hostname` and `pathname`.  `parseUrl` models that subset: an
alphabetic scheme, `://`, a non-empty host (lower-cased, as the constructor
normalises it) terminated by `/`, `?` or `#`, and the path up to `?` or `#`
(defaulting to `/`).  Parse failure models the constructor throwing. -/

structure UrlParts where
  scheme : Str
  host : Str
  path : Str
deriving DecidableEq, Repr

/-- Scheme characters accepted after the leading letter. -/
def schemeChar (c : Char) : Bool :=
  c.isAlpha || c.isDigit || c = '+' || c = '-' || c = '.'

/-- Parse a URL string into scheme, hostname and pathname (see above). -/
def parseUrl (s : Str) : Option UrlParts :=
  match splitOnFirst s (("://").data) with
  | none => none
  | some (scheme, rest) =>
    let host := rest.takeWhile fun c => !(c = '/' || c = '?' || c = '#')
    let after := rest.drop host.length
    let path :=
      if after.head? = some '/' then after.takeWhile fun c => !(c = '?' || c = '#')
      else ['/']
    match scheme with
    | [] => none
    | c :: cs =>
      if c.isAlpha && cs.all schemeChar && host ≠ [] then
        some ⟨scheme, toLowerStr host, path⟩
      else none

/-- `isUrlShortener` from `cli-test.ts` (and `content-extractor.ts`):
hostname is exactly one of the fixed shortener list. -/
def isUrlShortener (url : Str) : Bool :=
  match parseUrl url with
  | none => false
  | some u =>
    u.host = ("t.co").data || u.host = ("bit.ly").data ||
    u.host = ("tinyurl.com").data || u.host = ("goo.gl").data ||
    u.host = ("ow.ly").data || u.host = ("is.gd").data

/-- `convertGitHubUrl`: rewrite `github.com/.../blob/...` URLs to
`raw.githubusercontent.com` raw URLs; everything else is unchanged. -/
def convertGitHubUrl (url : Str) : Str :=
  match parseUrl url with
  | none => url
  | some u =>
    if u.host = ("github.com").data && containsStr u.path (("/blob/").data) then
      ("https://raw.githubusercontent.com").data ++
        replaceFirst u.path (("/blob/").data) (("/").data)
    else url

/-- `isRawTextUrl`: hostname is `raw.githubusercontent.com`. -/
def isRawTextUrl (url : Str) : Bool :=
  match parseUrl url with
  | none => false
  | some u => u.host = ("raw.githubusercontent.com").data

/-- `needsJsRendering`: hostname equals, or is a subdomain of, one of the
four Twitter/X domains. -/
def needsJsRendering (url : Str) : Bool :=
  match parseUrl url with
  | none => false
  | some u =>
    (("twitter.com").data = u.host || endsWithStr ((".twitter.com").data) u.host) ||
    (("x.com").data = u.host || endsWithStr ((".x.com").data) u.host) ||
    (("mobile.twitter.com").data = u.host ||
      endsWithStr ((".mobile.twitter.com").data) u.host) ||
    (("mobile.x.com").data = u.host || endsWithStr ((".mobile.x.com").data) u.host)

/-! ## Markdown cleaning and title extraction -/

/-- Replacement for one maximal run of `p` newlines under `/\n{3,}/g`:
three or more collapse to two, shorter runs stay. -/
def emitNlRun (p : Nat) : Str :=
  if 3 ≤ p then ['\n', '\n'] else List.replicate p '\n'

/-- State-machine pass for `/\n{3,}/g` replacement: `p` counts the
newlines of the currently open run. -/
def collapseGo : Str → Nat → Str
  | [], p => emitNlRun p
  | c :: cs, p =>
    if c = '\n' then collapseGo cs (p + 1)
    else emitNlRun p ++ (c :: collapseGo cs 0)

/-- `.replace(/\n{3,}/g, "\n\n")`: every maximal run of three or more
newlines is collapsed to exactly two. -/
def collapseNewlineRuns (s : Str) : Str := collapseGo s 0

/-- `.replace(/^\s+$/gm, "")`: lines made up solely of (one or more)
whitespace characters are emptied. -/
def blankWsOnlyLines (s : Str) : Str :=
  joinLines ((splitChar '\n' s).map fun l =>
    if l ≠ [] && l.all isWsChar then [] else l)

/-- `cleanMarkdown`: collapse newline runs, blank whitespace-only lines,
then trim — in that order, exactly as the source chains the calls. -/
def cleanMarkdown (markdown : Str) : Str :=
  trim (blankWsOnlyLines (collapseNewlineRuns markdown))

/-- The capture group of the first line matching `/^#\s+(.+)$/m`:
a `#`, at least one whitespace character, then at least one further
character (the greedy `\s+` backtracks one character when the rest of the
line is all whitespace, so the group is never empty on a matching line). -/
def headingGroupOfLine (l : Str) : Option Str :=
  match l with
  | [] => none
  | c :: rest =>
    if c = '#' then
      match rest with
      | [] => none
      | d :: _ =>
        if isWsChar d then
          match rest.dropWhile isWsChar with
          | [] => (rest.getLast?).map fun x => [x]
          | t => some t
        else none
    else none

/-- First `# heading` capture group in a multi-line string. -/
def headingGroup (s : Str) : Option Str :=
  (splitChar '\n' s).findSome? headingGroupOfLine

/-- First line matching `/^(.+)$/m`, i.e. the first non-empty line. -/
def firstNonEmptyLine (s : Str) : Option Str :=
  (splitChar '\n' s).find? fun l => l ≠ []

/-- Title selection in `extractViaJina`: first `#` heading, else first
non-empty line (both trimmed), defaulting to `"Tweet"`. -/
def jinaTitle (markdown : Str) : Str :=
  match headingGroup markdown with
  | some g => trim g
  | none =>
    match firstNonEmptyLine markdown with
    | some l => trim l
    | none => ("Tweet").data

/-- Last segment of a pathname (`pathname.split("/")` last element),
used as the fallback title of raw text files. -/
def lastPathSegment (path : Str) : Str :=
  ((splitChar '/' path).getLast?).getD []

/-! ## Link extraction from tweet content (`extractFirstUrl`) -/

/-- Characters excluded by the URL regex body `[^\s<>")\]]`. -/
def urlStopChar (c : Char) : Bool :=
  isWsChar c || c = '<' || c = '>' || c = '"' || c = ')' || c = ']'

/-- Scan for matches of `/https?:\/\/[^\s<>")\]]+/g`, leftmost first,
non-overlapping, each maximal.  `fuel` bounds the number of scan steps;
every step consumes at least one character, so starting it at the string
length reproduces the unbounded regex scan. -/
def findUrlMatchesGo : Nat → Str → List Str
  | 0, _ => []
  | _ + 1, [] => []
  | fuel + 1, c :: cs =>
    let s := c :: cs
    if startsWithStr (("https://").data) s || startsWithStr (("http://").data) s then
      let k := if startsWithStr (("https://").data) s then 8 else 7
      let body := (s.drop k).takeWhile fun d => !urlStopChar d
      if body = [] then findUrlMatchesGo fuel cs
      else (s.take k ++ body) :: findUrlMatchesGo fuel ((s.drop k).drop body.length)
    else findUrlMatchesGo fuel cs

/-- All matches of `/https?:\/\/[^\s<>")\]]+/g` in a string. -/
def findUrlMatches (s : Str) : List Str := findUrlMatchesGo s.length s

/-- `.replace(/[.,;:!?)]+$/, "")`: strip trailing punctuation from a
matched URL. -/
def cleanTrailingPunct (u : Str) : Str :=
  (u.reverse.dropWhile fun c =>
    c = '.' || c = ',' || c = ';' || c = ':' || c = '!' || c = '?' || c = ')').reverse

/-- The twitter/x hostname filter in `extractFirstUrl`. -/
def isTwitterHost (h : Str) : Bool :=
  h = ("twitter.com").data || h = ("x.com").data ||
  endsWithStr ((".twitter.com").data) h || endsWithStr ((".x.com").data) h

/-- The media/video/PDF/YouTube exclusion patterns of `extractFirstUrl`.
The three extension patterns carry the `i` flag, so they are tested on the
lower-cased URL, anchored at the end; the YouTube pattern
`/^https?:\/\/(www\.)?(youtube\.com|youtu\.be)/` carries no flag, so its
prefix test is case-sensitive on the URL as matched. -/
def isSkippedUrl (u : Str) : Bool :=
  let lu := toLowerStr u
  endsWithStr ((".jpg").data) lu || endsWithStr ((".jpeg").data) lu ||
  endsWithStr ((".png").data) lu || endsWithStr ((".gif").data) lu ||
  endsWithStr ((".webp").data) lu || endsWithStr ((".svg").data) lu ||
  endsWithStr ((".ico").data) lu ||
  endsWithStr ((".mp4").data) lu || endsWithStr ((".webm").data) lu ||
  endsWithStr ((".mov").data) lu || endsWithStr ((".avi").data) lu ||
  endsWithStr ((".pdf").data) lu ||
  startsWithStr (("http://youtube.com").data) u ||
  startsWithStr (("http://www.youtube.com").data) u ||
  startsWithStr (("http://youtu.be").data) u ||
  startsWithStr (("http://www.youtu.be").data) u ||
  startsWithStr (("https://youtube.com").data) u ||
  startsWithStr (("https://www.youtube.com").data) u ||
  startsWithStr (("https://youtu.be").data) u ||
  startsWithStr (("https://www.youtu.be").data) u

/-- Iterate the regex matches: clean trailing punctuation, drop unparseable
URLs, twitter/x hosts and excluded patterns; return the first survivor. -/
def pickFirstQualifying : List Str → Option Str
  | [] => none
  | raw :: rest =>
    let u := cleanTrailingPunct raw
    match parseUrl u with
    | none => pickFirstQualifying rest
    | some p =>
      if isTwitterHost p.host then pickFirstQualifying rest
      else if isSkippedUrl u then pickFirstQualifying rest
      else some u

/-- `extractFirstUrl` from `cli-test.ts`: the first embedded HTTP(S) URL
that is not a twitter/x URL and not excluded as media/video/PDF/YouTube. -/
def extractFirstUrl (content : Str) : Option Str :=
  pickFirstQualifying (findUrlMatches content)

/-! ## The content extractor (`ContentExtractor`, `test/cli-test.ts`)

Network and DOM/library effects are an oracle record `Net`:
`head`/`get` model `fetch` with `redirect: "follow"` exposing the final
`response.url` (`none` = the promise rejected); `fetch` models a plain
`fetch` returning either a transport error or a response with status,
status text and body text; `domTitle`/`domMarkdown` model the composition
of DOM parsing, `extractTitle`/`extractMainContent` and Turndown applied to
a fetched HTML body — external library behaviour, a pure function of the
body here.  Every piece of the plugin's own logic is embedded explicitly. -/

/-- Result of one `fetch` call: transport failure or an HTTP response. -/
inductive FetchOutcome where
  | netErr (msg : Str)
  | resp (status : Nat) (statusText : Str) (body : Str)
deriving DecidableEq

/-- The network / external-library oracle for the extractor. -/
structure Net where
  head : Str → Option Str
  get : Str → Option Str
  fetch : Str → FetchOutcome
  domTitle : Str → Str
  domMarkdown : Str → Str

/-- The extraction result record (`ExtractedContent`). -/
structure ExtractedContent where
  title : Str
  content : Str
  url : Str
  wordCount : Nat
deriving DecidableEq, Repr

/-- `resolveShortUrl`: HEAD following redirects; on rejection retry once
with GET; on a second rejection keep the original URL.  Total — every
failure is caught. -/
def resolveShortUrl (net : Net) (url : Str) : Str :=
  match net.head url with
  | some finalUrl => finalUrl
  | none =>
    match net.get url with
    | some finalUrl => finalUrl
    | none => url

/-- The `resolvedUrl` of `extractFromUrl`: shorteners are resolved, other
URLs pass through. -/
def resolvedOf (net : Net) (url : Str) : Str :=
  if isUrlShortener url then resolveShortUrl net url else url

/-- `response.ok`: status in the 2xx range. -/
def statusOk (status : Nat) : Bool := 200 ≤ status && status < 300

/-- `extractRawText`: fetch as plain text; title from the first `#` heading
else the filename; the stored content is trimmed but the word count is
computed from the untrimmed body, exactly as in the source. -/
def extractRawText (net : Net) (url : Str) : Except Str ExtractedContent :=
  match net.fetch url with
  | .netErr m => .error m
  | .resp status statusText body =>
    if !statusOk status then
      .error (("Failed to fetch URL: ").data ++ natStr status ++ [' '] ++ statusText)
    else
      let title :=
        match headingGroup body with
        | some g => trim g
        | none =>
          match parseUrl url with
          | some u => lastPathSegment u.path
          | none => []
      .ok ⟨title, trim body, url, countWords body⟩

/-- `extractViaJina`: fetch `https://r.jina.ai/<original-url>`; title from
the markdown; content is the cleaned markdown. -/
def extractViaJina (net : Net) (url : Str) : Except Str ExtractedContent :=
  match net.fetch (("https://r.jina.ai/").data ++ url) with
  | .netErr m => .error m
  | .resp status statusText body =>
    if !statusOk status then
      .error (("Jina Reader failed: ").data ++ natStr status ++ [' '] ++ statusText)
    else
      let cleaned := cleanMarkdown body
      .ok ⟨jinaTitle body, cleaned, url, countWords cleaned⟩

/-- The generic HTML path of `extractFromUrl` (fetches the original URL,
as the source does): DOM title and Turndown markdown from the oracle,
then the plugin's own cleaning and word counting. -/
def extractGeneric (net : Net) (url : Str) : Except Str ExtractedContent :=
  match net.fetch url with
  | .netErr m => .error m
  | .resp status statusText body =>
    if !statusOk status then
      .error (("Failed to fetch URL: ").data ++ natStr status ++ [' '] ++ statusText)
    else
      let cleaned := cleanMarkdown (net.domMarkdown body)
      .ok ⟨net.domTitle body, cleaned, url, countWords cleaned⟩

/-- The combined tweet + linked-article record built by `extractFromUrl`
when link following succeeds. -/
def combineTweetLinked (tweet linked : ExtractedContent) : ExtractedContent :=
  ⟨tweet.title,
    tweet.content ++ ("\n\n---\n\n## Linked Article: ").data ++ linked.title ++
      ("\n\n").data ++ linked.content,
    tweet.url,
    tweet.wordCount + linked.wordCount⟩

/-- The branch dispatch of `extractFromUrl` after shortener resolution:
raw text, Jina (with a handler for the tweet result), or generic HTML.
`origUrl` is the URL the caller passed; the source fetches it (not the
processed URL) on the Jina and generic paths. -/
def extractDispatch (net : Net) (jinaHandler : ExtractedContent → Except Str ExtractedContent)
    (origUrl resolvedUrl : Str) : Except Str ExtractedContent :=
  let processedUrl := convertGitHubUrl resolvedUrl
  if isRawTextUrl processedUrl then extractRawText net processedUrl
  else if needsJsRendering processedUrl then
    match extractViaJina net origUrl with
    | .error e => .error e
    | .ok tweet => jinaHandler tweet
  else extractGeneric net origUrl

/-- `extractFromUrl(url, false)`: the Jina branch returns the tweet content
directly (no link following). -/
def extractFromUrlNF (net : Net) (url : Str) : Except Str ExtractedContent :=
  extractDispatch net .ok url (resolvedOf net url)

/-- The link-following step of `extractFromUrl(url, true)`: extract the
first qualifying URL with `followLinks = false`; on success combine, on any
failure fall back to the tweet-only content. -/
def followHandler (net : Net) (tweet : ExtractedContent) : Except Str ExtractedContent :=
  match extractFirstUrl tweet.content with
  | some linkedUrl =>
    match extractFromUrlNF net linkedUrl with
    | .ok linked => .ok (combineTweetLinked tweet linked)
    | .error _ => .ok tweet
  | none => .ok tweet

/-- `extractFromUrl(url, true)`. -/
def extractFromUrlT (net : Net) (url : Str) : Except Str ExtractedContent :=
  extractDispatch net (followHandler net) url (resolvedOf net url)

/-- `ContentExtractor.extractFromUrl(url, followLinks)` from
`test/cli-test.ts`. -/
def extractFromUrl (net : Net) (url : Str) (followLinks : Bool) :
    Except Str ExtractedContent :=
  if followLinks then extractFromUrlT net url else extractFromUrlNF net url

/-! ## The completion client (`LLMService`, `src/services/llm-service.ts`)

Thrown `Error` objects carry only their message in this code, so errors
are embedded as the message string.  JSON payloads parsed by the external
`response.json` / `JSON.parse` are oracles exposing exactly the fields the
source reads; `stringified` models `JSON.stringify` of the error value. -/

/-- The `LLMResponse` fields used by every caller (`usage` is only passed
through and is dropped from the embedding). -/
structure LLMResponse where
  content : Str
  model : Str
deriving DecidableEq, Repr

/-- An in-band `error` value: `message` field plus its `JSON.stringify`
rendering (used when `message` is absent or empty — falsy). -/
structure JsonErr where
  message : Option Str
  stringified : Str
deriving DecidableEq, Repr

/-- `error.message || JSON.stringify(error)`. -/
def jsonErrMsg (e : JsonErr) : Str :=
  match e.message with
  | some m => if m = [] then e.stringified else m
  | none => e.stringified

/-- JavaScript `a || d` for an optional string `a` (absent and the empty
string are both falsy). -/
def jsOrStr (a : Option Str) (d : Str) : Str :=
  match a with
  | some s => if s = [] then d else s
  | none => d

/-- The parsed body of a non-streaming completion response: the `error`
field, the echoed `model`, and `choices?.[0]?.message?.content`. -/
structure CompletionJson where
  error : Option JsonErr
  model : Option Str
  content0 : Option Str
deriving DecidableEq, Repr

/-- One `requestUrl` response (`throw: false` — non-2xx statuses are
delivered, not thrown). -/
structure CompletionResp where
  status : Nat
  text : Str
  json : CompletionJson
deriving DecidableEq, Repr

/-- The rate-limit classifier of `completionWithAutoFree`:
`message.includes("429") || message.toLowerCase().includes("rate limit")
|| message.toLowerCase().includes("too many requests")`. -/
def isRateLimitMsg (m : Str) : Bool :=
  containsStr m (("429").data) ||
  containsStr (toLowerStr m) (("rate limit").data) ||
  containsStr (toLowerStr m) (("too many requests").data)

/-- `LLMService.completion` (non-streaming) as a function of the requested
model and the received response. -/
def completion (model : Str) (resp : CompletionResp) : Except Str LLMResponse :=
  if resp.status = 429 then
    .error (("Rate limit exceeded (429) for model ").data ++ model)
  else if resp.status ≠ 200 then
    .error (("OpenRouter API error: ").data ++
      jsOrStr (some resp.text) (("HTTP ").data ++ natStr resp.status))
  else
    match resp.json.error with
    | some err => .error (jsonErrMsg err)
    | none => .ok ⟨jsOrStr resp.json.content0 [], jsOrStr resp.json.model model⟩

/-- The `for (const modelId of freeModels)` loop of `completionWithAutoFree`.
`attempt` is one invocation of `completion`/`streamCompletion` for a model
(the prompt is fixed for the whole loop); `lastErr` is the running
`lastError` (`none` = still `null`).  Besides the source's result it
returns the list of models actually attempted, in order. -/
def autoFreeGo (attempt : Str → Except Str LLMResponse) :
    List Str → Option Str → Except Str LLMResponse × List Str
  | [], lastErr =>
    (.error (("All ranked free models are rate limited. Last error: ").data ++
      lastErr.getD (("undefined").data)), [])
  | m :: ms, lastErr =>
    match attempt m with
    | .ok r => (.ok r, [m])
    | .error e =>
      if isRateLimitMsg e then
        let p := autoFreeGo attempt ms (some e)
        (p.1, m :: p.2)
      else (.error e, [m])

/-- `LLMService.completionWithAutoFree`: empty ranked list fails up front;
otherwise the fallback loop runs. -/
def completionWithAutoFree (attempt : Str → Except Str LLMResponse)
    (freeModels : List Str) : Except Str LLMResponse × List Str :=
  if freeModels = [] then
    (.error (("No free models ranked. Add models in Settings > Free Rank tab.").data), [])
  else autoFreeGo attempt freeModels none

/-! ## The streaming completion (`LLMService.streamCompletion`)

The response is an oracle `StreamNet`: status/status text, the decoded
reader chunks in order, and a `JSON.parse` oracle mapping each
`data: <payload>` payload to a parse failure (with the engine's message)
or to the fields the source reads (`error`, `choices[0].delta.content`).
Crucially, `streamCompletion` takes no abort signal: the source neither
passes one to `fetch` nor consults one in the read loop. -/

/-- `JSON.parse` outcome for one stream frame. -/
inductive FrameParse where
  | fail (msg : Str)
  | val (error : Option JsonErr) (deltaContent : Option Str)

/-- The streaming response oracle. -/
structure StreamNet where
  status : Nat
  errText : Str
  chunks : List Str
  jsonParse : Str → FrameParse

/-- What processing one `data:` payload does, after the try/catch:
nothing, emit a chunk, or abort the stream with a rethrown error.  A
thrown error (in-band `error` field or `JSON.parse` failure) is rethrown
only when its message contains the substring `"error"` — the source's
`if (e instanceof Error && e.message.includes("error")) throw e`. -/
inductive FrameEffect where
  | skip
  | emit (c : Str)
  | abort (e : Str)

/-- Process one `data:` payload. -/
def processFrame (net : StreamNet) (payload : Str) : FrameEffect :=
  match net.jsonParse payload with
  | .fail m => if containsStr m (("error").data) then .abort m else .skip
  | .val error deltaContent =>
    match error with
    | some err =>
      let m := jsonErrMsg err
      if containsStr m (("error").data) then .abort m else .skip
    | none =>
      match deltaContent with
      | some c => if c ≠ [] then .emit c else .skip
      | none => .skip

/-- The line loop of `streamCompletion`: accumulate delta contents and
record every `onStream` emission in order; an aborting frame stops the
loop with the rethrown error. -/
def streamLines (net : StreamNet) :
    List Str → Str → Except Str Str × List Str
  | [], acc => (.ok acc, [])
  | line :: rest, acc =>
    if startsWithStr (("data: ").data) line then
      let payload := line.drop 6
      if payload = ("[DONE]").data then streamLines net rest acc
      else
        match processFrame net payload with
        | .skip => streamLines net rest acc
        | .emit c =>
          let p := streamLines net rest (acc ++ c)
          (p.1, c :: p.2)
        | .abort e => (.error e, [])
    else streamLines net rest acc

/-- `LLMService.streamCompletion` as a function of the requested model and
the streaming response; returns the source's result together with the
ordered list of `onStream` emissions.  Each decoded chunk is split on
newlines and the lines are processed in order, exactly as the nested
source loops do. -/
def streamCompletion (net : StreamNet) (model : Str) :
    Except Str LLMResponse × List Str :=
  if net.status = 429 then
    (.error (("Rate limit exceeded (429) for model ").data ++ model), [])
  else if !statusOk net.status then
    (.error (("OpenRouter API error: ").data ++ natStr net.status ++
      (" - ").data ++ net.errText), [])
  else
    match streamLines net (net.chunks.flatMap (splitChar '\n')) [] with
    | (.ok full, tr) => (.ok ⟨full, model⟩, tr)
    | (.error e, tr) => (.error e, tr)

/-! ## The streaming action layer
(`SummarizeAction.executeStreamingSummarize`, `src/actions/summarize.ts`)

`setupStreamingInsert` creates an `AbortController` whose signal is fired
by the Escape key; `abortAfter` models the moment it fires, as a number of
delivered chunks (`none` = never).  The action passes the signal to
`LLMService.summarize`, but that service's options do not include it and
`streamCompletion` never consults it, so the embedding — like the source —
has no data flow from the signal into the stream loop.  `cancelled` can
only become `true` in the `catch` branch for a `DOMException` named
`AbortError`; the service only ever throws plain `Error`s, so that branch
maps error results to error results unchanged. -/

/-- `executeStreamingSummarize` for the streaming path: the result
(`{content, cancelled}`) or a rethrown error, with the ordered list of
chunks handed to `handleStreamChunk`. -/
def executeStreamingSummarize (net : StreamNet) (model : Str)
    (abortAfter : Option Nat) : Except Str (Str × Bool) × List Str :=
  match streamCompletion net model with
  | (.ok resp, tr) => (.ok (resp.content, false), tr)
  | (.error e, tr) => (.error e, tr)

/-! ## Helper lemmas on tokenisation and trimming -/

lemma wsTokens_nil : wsTokens [] = [] := rfl

lemma wsTokens_cons_ws {c : Char} {cs : Str} (h : isWsChar c = true) :
    wsTokens (c :: cs) = wsTokens cs := by
  cases cs <;> simp only [wsTokens, h, if_true]

lemma wsTokens_singleton_nws {c : Char} (h : isWsChar c = false) :
    wsTokens [c] = [[c]] := by
  simp only [wsTokens, h, Bool.false_eq_true, if_false]

lemma wsTokens_cons_nws_ws {c d : Char} {ds : Str} (hc : isWsChar c = false)
    (hd : isWsChar d = true) :
    wsTokens (c :: d :: ds) = [c] :: wsTokens (d :: ds) := by
  conv_lhs => rw [wsTokens]
  simp only [hc, hd, Bool.false_eq_true, if_false, if_true]

lemma wsTokens_cons_nws_nws {c d : Char} {ds : Str} (hc : isWsChar c = false)
    (hd : isWsChar d = false) :
    wsTokens (c :: d :: ds) =
      match wsTokens (d :: ds) with
      | [] => [[c]]
      | t :: ts => (c :: t) :: ts := by
  conv_lhs => rw [wsTokens]
  simp only [hc, hd, Bool.false_eq_true, if_false]

lemma wsTokens_of_all_ws {w : Str} (hw : ∀ c ∈ w, isWsChar c = true) :
    wsTokens w = [] := by
  induction w with
  | nil => exact wsTokens_nil
  | cons c cs ih =>
    rw [wsTokens_cons_ws (hw c (by simp))]
    exact ih fun d hd => hw d (by simp [hd])

lemma wsTokens_append_ws (s : Str) {w : Str} (hw : ∀ c ∈ w, isWsChar c = true) :
    wsTokens (s ++ w) = wsTokens s := by
  induction s with
  | nil =>
    rw [List.nil_append, wsTokens_of_all_ws hw, wsTokens_nil]
  | cons c cs ih =>
    by_cases hc : isWsChar c = true
    · rw [List.cons_append, wsTokens_cons_ws hc, wsTokens_cons_ws hc, ih]
    · have hc' : isWsChar c = false := by simpa using hc
      cases cs with
      | nil =>
        cases w with
        | nil => rfl
        | cons d ds =>
          have hd : isWsChar d = true := hw d (by simp)
          rw [show ([c] : Str) ++ (d :: ds) = c :: d :: ds from rfl,
            wsTokens_cons_nws_ws hc' hd, wsTokens_of_all_ws hw,
            wsTokens_singleton_nws hc']
      | cons d ds =>
        by_cases hd : isWsChar d = true
        · rw [List.cons_append, List.cons_append,
            wsTokens_cons_nws_ws hc' hd, ← List.cons_append, ih,
            wsTokens_cons_nws_ws hc' hd]
        · have hd' : isWsChar d = false := by simpa using hd
          rw [List.cons_append, List.cons_append,
            wsTokens_cons_nws_nws hc' hd', ← List.cons_append, ih,
            wsTokens_cons_nws_nws hc' hd']

lemma wsTokens_trimLeft (s : Str) : wsTokens (trimLeft s) = wsTokens s := by
  induction s with
  | nil => rfl
  | cons c cs ih =>
    by_cases h : isWsChar c = true
    · rw [trimLeft, List.dropWhile_cons, if_pos (by simp [h]), wsTokens_cons_ws h]
      exact ih
    · rw [trimLeft, List.dropWhile_cons, if_neg (by simpa using h)]

lemma trimRight_append_ws (s : Str) :
    trimRight s ++ (s.reverse.takeWhile isWsChar).reverse = s := by
  have h := List.takeWhile_append_dropWhile isWsChar s.reverse
  calc trimRight s ++ (s.reverse.takeWhile isWsChar).reverse
      = (s.reverse.takeWhile isWsChar ++ s.reverse.dropWhile isWsChar).reverse := by
        rw [List.reverse_append]; rfl
    _ = s := by rw [h, List.reverse_reverse]

lemma mem_takeWhile_ws {c : Char} {l : Str} (h : c ∈ l.takeWhile isWsChar) :
    isWsChar c = true := by
  induction l with
  | nil => simp [List.takeWhile] at h
  | cons d ds ih =>
    rw [List.takeWhile_cons] at h
    by_cases hd : isWsChar d = true
    · rw [if_pos (by simp [hd])] at h
      rcases List.mem_cons.mp h with rfl | h'
      · exact hd
      · exact ih h'
    · rw [if_neg (by simpa using hd)] at h
      simp at h

lemma wsTokens_trimRight (s : Str) : wsTokens (trimRight s) = wsTokens s := by
  conv_rhs => rw [← trimRight_append_ws s]
  rw [wsTokens_append_ws]
  intro c hc
  exact mem_takeWhile_ws (List.mem_reverse.mp hc)

lemma wsTokens_trim (s : Str) : wsTokens (trim s) = wsTokens s := by
  rw [trim, wsTokens_trimRight, wsTokens_trimLeft]

/-- Re-tokenising a trimmed string yields the same count: the key fact
behind the raw-text path, whose stored word count is computed from the
untrimmed body while the stored content is trimmed. -/
lemma countWords_trim (s : Str) : countWords (trim s) = countWords s := by
  rw [countWords, countWords, wsTokens_trim, wsTokens_trim]

lemma containsStr_of_infix {s pat : Str} (h : pat <:+: s) :
    containsStr s pat = true := by
  rw [containsStr]
  exact decide_eq_true h

/-- A pattern occurring in the middle part occurs in the whole
concatenation. -/
lemma containsStr_append_middle {a m b pat : Str} (h : pat <:+: m) :
    containsStr (a ++ (m ++ b)) pat = true := by
  refine containsStr_of_infix (h.trans ⟨a, b, ?_⟩)
  rw [List.append_assoc]

lemma containsStr_append_left {pre s pat : Str} (h : pat <:+: pre) :
    containsStr (pre ++ s) pat = true := by
  refine containsStr_of_infix (h.trans ?_)
  exact (List.prefix_append pre s).isInfix

/-! ## Claim C9 -/

/-- C9: the URL rewrite step sends `https://github.com/o/r/blob/main/f.md`
to `https://raw.githubusercontent.com/o/r/main/f.md` (host replaced with
`raw.githubusercontent.com`, first `/blob/` replaced with `/`), and every
URL whose hostname is not `github.com` or whose path lacks `/blob/` is
returned unchanged. -/
theorem C9_github_rewrite :
    convertGitHubUrl (("https://github.com/o/r/blob/main/f.md").data) =
      ("https://raw.githubusercontent.com/o/r/main/f.md").data
    ∧ ∀ url u, parseUrl url = some u →
        (u.host ≠ ("github.com").data ∨
          containsStr u.path (("/blob/").data) = false) →
        convertGitHubUrl url = url := by
  constructor
  · decide
  · intro url u hp hcond
    have hfalse : (decide (u.host = ("github.com").data) &&
        containsStr u.path (("/blob/").data)) = false := by
      rcases hcond with h | h
      · simp [h]
      · simp [h]
    rw [convertGitHubUrl, hp]
    simp only [hfalse]
    rfl

/-- Witness for C9: a non-GitHub URL passes through the rewrite step
unchanged. -/
theorem C9_github_rewrite_witness :
    convertGitHubUrl (("https://example.com/page").data) =
      ("https://example.com/page").data :=
  C9_github_rewrite.2 _
    ⟨("https").data, ("example.com").data, ("/page").data⟩
    (by decide) (Or.inl (by decide))

/-! ## Claim C3 -/

/-- When every ranked model is rate limited, the loop attempts all of them
in order and fails with the aggregate message built from the last error. -/
lemma autoFreeGo_all_rateLimited (attempt : Str → Except Str LLMResponse) :
    ∀ (ms : List Str) (le : Option Str) (mL : Str), ms.getLast? = some mL →
      (∀ m ∈ ms, ∃ e, attempt m = .error e ∧ isRateLimitMsg e = true) →
      (autoFreeGo attempt ms le).2 = ms ∧
      ∃ eL, attempt mL = .error eL ∧
        (autoFreeGo attempt ms le).1 =
          .error (("All ranked free models are rate limited. Last error: ").data ++ eL)
  | [], le, mL, hlast, _ => by simp at hlast
  | m :: ms, le, mL, hlast, hall => by
    obtain ⟨e, he, hrl⟩ := hall m (by simp)
    cases ms with
    | nil =>
      have hm : mL = m := by simpa using hlast.symm
      subst hm
      rw [autoFreeGo, he]
      simp only [hrl, if_true]
      rw [autoFreeGo]
      exact ⟨rfl, e, rfl, rfl⟩
    | cons m' ms' =>
      have hlast' : (m' :: ms').getLast? = some mL := by
        rwa [List.getLast?_cons_cons] at hlast
      have hall' : ∀ x ∈ m' :: ms', ∃ e, attempt x = .error e ∧ isRateLimitMsg e = true :=
        fun x hx => hall x (by simp [hx])
      obtain ⟨htr, eL, heL, hres⟩ :=
        autoFreeGo_all_rateLimited attempt (m' :: ms') (some e) mL hlast' hall'
      rw [autoFreeGo, he]
      simp only [hrl, if_true]
      exact ⟨by simp [htr], eL, heL, hres⟩

/-- C3: the auto-free fallback tries the ranked models strictly in list
order; a rate-limit-classified failure is recorded as the last error and
the loop continues; any other failure propagates immediately with no
further attempts; the first success is returned immediately and later
models are never invoked — in particular `[A, B, C]` with A, B rate
limited and C succeeding returns C's result after exactly three attempts.
The second component of `completionWithAutoFree` is the ordered list of
models actually attempted. -/
theorem C3_autoFree_fallback_order :
    (∀ (attempt : Str → Except Str LLMResponse) (A B C : Str) (rest : List Str)
        (eA eB : Str) (rC : LLMResponse),
        attempt A = .error eA → isRateLimitMsg eA = true →
        attempt B = .error eB → isRateLimitMsg eB = true →
        attempt C = .ok rC →
        completionWithAutoFree attempt (A :: B :: C :: rest) = (.ok rC, [A, B, C]))
    ∧ (∀ (attempt : Str → Except Str LLMResponse) (m : Str) (ms : List Str)
        (r : LLMResponse), attempt m = .ok r →
        completionWithAutoFree attempt (m :: ms) = (.ok r, [m]))
    ∧ (∀ (attempt : Str → Except Str LLMResponse) (m : Str) (ms : List Str)
        (e : Str), attempt m = .error e → isRateLimitMsg e = false →
        completionWithAutoFree attempt (m :: ms) = (.error e, [m]))
    ∧ (∀ (attempt : Str → Except Str LLMResponse) (ms : List Str) (mL : Str),
        ms.getLast? = some mL →
        (∀ m ∈ ms, ∃ e, attempt m = .error e ∧ isRateLimitMsg e = true) →
        (completionWithAutoFree attempt ms).2 = ms ∧
        ∃ eL, attempt mL = .error eL ∧
          (completionWithAutoFree attempt ms).1 =
            .error (("All ranked free models are rate limited. Last error: ").data ++ eL)) := by
  refine ⟨?_, ?_, ?_, ?_⟩
  · intro attempt A B C rest eA eB rC hA hArl hB hBrl hC
    rw [completionWithAutoFree, if_neg (by simp)]
    rw [autoFreeGo, hA]
    simp only [hArl, if_true]
    rw [autoFreeGo, hB]
    simp only [hBrl, if_true]
    rw [autoFreeGo, hC]
  · intro attempt m ms r h
    rw [completionWithAutoFree, if_neg (by simp), autoFreeGo, h]
  · intro attempt m ms e h hrl
    rw [completionWithAutoFree, if_neg (by simp), autoFreeGo, h]
    simp [hrl]
  · intro attempt ms mL hlast hall
    have hne : ms ≠ [] := by
      intro h; subst h; simp at hlast
    rw [completionWithAutoFree, if_neg hne]
    exact autoFreeGo_all_rateLimited attempt ms none mL hlast hall

/-- Witness for C3: the `[A, B, C]` scenario at concrete inputs — two
rate-limited models, then a success, with exactly three attempts. -/
theorem C3_autoFree_fallback_order_witness :
    completionWithAutoFree
      (fun m =>
        if m = ("a").data then .error (("Rate limit exceeded (429) for model a").data)
        else if m = ("b").data then .error (("Provider says: Too Many Requests").data)
        else .ok ⟨("summary text").data, ("c").data⟩)
      [("a").data, ("b").data, ("c").data] =
      (.ok ⟨("summary text").data, ("c").data⟩,
        [("a").data, ("b").data, ("c").data]) :=
  C3_autoFree_fallback_order.1 _ _ _ _ []
    (("Rate limit exceeded (429) for model a").data)
    (("Provider says: Too Many Requests").data)
    ⟨("summary text").data, ("c").data⟩
    (by decide) (by decide) (by decide) (by decide) (by decide)

/-! ## Claim C10 -/

/-- C10: a successful streaming completion always reports the requested
model id — the server-echoed id is never consulted — while the
non-streaming path reports the server-echoed id whenever the body carries
a non-empty one, and falls back to the requested id when it is absent. -/
theorem C10_model_field :
    (∀ (net : StreamNet) (model : Str) (r : LLMResponse) (tr : List Str),
        streamCompletion net model = (.ok r, tr) → r.model = model)
    ∧ (∀ (model : Str) (resp : CompletionResp) (m' : Str) (r : LLMResponse),
        resp.json.model = some m' → m' ≠ [] →
        completion model resp = .ok r → r.model = m')
    ∧ (∀ (model : Str) (resp : CompletionResp) (r : LLMResponse),
        resp.json.model = none →
        completion model resp = .ok r → r.model = model) := by
  refine ⟨?_, ?_, ?_⟩
  · intro net model r tr h
    rw [streamCompletion] at h
    split at h
    · exact absurd (congrArg Prod.fst h) (by simp)
    · split at h
      · exact absurd (congrArg Prod.fst h) (by simp)
      · split at h
        · rename_i full tr' heq
          have h1 := congrArg Prod.fst h
          simp only at h1
          injection h1 with h2
          rw [← h2]
        · exact absurd (congrArg Prod.fst h) (by simp)
  · intro model resp m' r hm hne h
    rw [completion] at h
    split at h
    · exact absurd h (by simp)
    · split at h
      · exact absurd h (by simp)
      · split at h
        · exact absurd h (by simp)
        · injection h with h1
          rw [← h1]
          simp [jsOrStr, hm, hne]
  · intro model resp r hm h
    rw [completion] at h
    split at h
    · exact absurd h (by simp)
    · split at h
      · exact absurd h (by simp)
      · split at h
        · exact absurd h (by simp)
        · injection h with h1
          rw [← h1]
          simp [jsOrStr, hm]

/-- Witness for C10: a concrete two-chunk stream reports the requested
model, and a concrete non-streaming response reports the echoed model. -/
theorem C10_model_field_witness :
    (LLMResponse.mk (("AB").data) (("req/model").data)).model = ("req/model").data
    ∧ (LLMResponse.mk (("hello").data) (("srv/model").data)).model = ("srv/model").data :=
  ⟨C10_model_field.1
      ⟨200, [],
        [("data: fA\n").data, ("data: fB\n").data, ("data: [DONE]\n").data],
        fun p =>
          if p = ("fA").data then .val none (some (("A").data))
          else if p = ("fB").data then .val none (some (("B").data))
          else .fail (("Unexpected token d in JSON").data)⟩
      (("req/model").data) ⟨("AB").data, ("req/model").data⟩
      [("A").data, ("B").data] (by decide),
    C10_model_field.2.1 (("req/model").data)
      ⟨200, [], ⟨none, some (("srv/model").data), some (("hello").data)⟩⟩
      (("srv/model").data) ⟨("hello").data, ("srv/model").data⟩
      (by decide) (by decide) (by decide)⟩

/-! ## Claim C7 -/

/-- C7: every URL whose hostname is exactly one of the six fixed shortener
hosts classifies as a shortener; resolution issues a HEAD request
following redirects, retries once with GET when the HEAD attempt fails,
keeps the original URL when both fail, and never raises; in that
both-failed case the extraction pipeline simply continues past the
resolution step with the original URL (for either value of
`followLinks`), so extraction can never fail at the resolution stage. -/
theorem C7_shortener_resolution :
    (∀ (url : Str) (u : UrlParts), parseUrl url = some u →
        (u.host = ("t.co").data ∨ u.host = ("bit.ly").data ∨
         u.host = ("tinyurl.com").data ∨ u.host = ("goo.gl").data ∨
         u.host = ("ow.ly").data ∨ u.host = ("is.gd").data) →
        isUrlShortener url = true)
    ∧ (∀ (net : Net) (url fu : Str), net.head url = some fu →
        resolveShortUrl net url = fu)
    ∧ (∀ (net : Net) (url fu : Str), net.head url = none → net.get url = some fu →
        resolveShortUrl net url = fu)
    ∧ (∀ (net : Net) (url : Str), net.head url = none → net.get url = none →
        resolveShortUrl net url = url)
    ∧ (∀ (net : Net) (url : Str), net.head url = none → net.get url = none →
        extractFromUrl net url true = extractDispatch net (followHandler net) url url ∧
        extractFromUrl net url false = extractDispatch net .ok url url) := by
  refine ⟨?_, ?_, ?_, ?_, ?_⟩
  · intro url u hp hhost
    rw [isUrlShortener, hp]
    rcases hhost with h | h | h | h | h | h <;> simp [h]
  · intro net url fu h
    rw [resolveShortUrl, h]
  · intro net url fu h1 h2
    rw [resolveShortUrl, h1, h2]
  · intro net url h1 h2
    rw [resolveShortUrl, h1, h2]
  · intro net url h1 h2
    have hres : resolvedOf net url = url := by
      rw [resolvedOf]
      split
      · rw [resolveShortUrl, h1, h2]
      · rfl
    constructor
    · show extractFromUrlT net url = _
      rw [extractFromUrlT, hres]
    · show extractFromUrlNF net url = _
      rw [extractFromUrlNF, hres]

/-- Witness for C7: `https://t.co/abc` classifies as a shortener, and with
both resolution requests failing the resolver returns the original URL. -/
theorem C7_shortener_resolution_witness :
    isUrlShortener (("https://t.co/abc").data) = true
    ∧ resolveShortUrl
        ⟨fun _ => none, fun _ => none, fun _ => .netErr (("offline").data),
          fun _ => [], fun _ => []⟩
        (("https://t.co/abc").data) = ("https://t.co/abc").data :=
  ⟨C7_shortener_resolution.1 _
      ⟨("https").data, ("t.co").data, ("/abc").data⟩
      (by decide) (Or.inl (by decide)),
    C7_shortener_resolution.2.2.2.1
      ⟨fun _ => none, fun _ => none, fun _ => .netErr (("offline").data),
        fun _ => [], fun _ => []⟩
      (("https://t.co/abc").data) rfl rfl⟩

/-! ## Claim C1 -/

/-- C1 (amended): re-tokenising `content` reproduces `wordCount` for every
`ExtractedContent` produced with `followLinks = false` — the raw-text,
Jina and generic paths all satisfy the round trip.  (The link-following
combination of claim C6 sets `wordCount` to the sum of the two parts'
counts, which the inserted separator, header and linked-title tokens make
strictly smaller than the token count of the combined `content`; see the
counterexample.) -/
theorem C1_wordCount_roundTrip_amended :
    ∀ (net : Net) (url : Str) (r : ExtractedContent),
      extractFromUrl net url false = .ok r →
      countWords r.content = r.wordCount := by
  intro net url r h
  rw [extractFromUrl] at h
  simp only [Bool.false_eq_true, if_false] at h
  rw [extractFromUrlNF, extractDispatch] at h
  split at h
  · -- raw-text path: content is the trimmed body, wordCount counts the
    -- untrimmed body
    rw [extractRawText] at h
    split at h
    · exact absurd h (by simp)
    · split at h
      · exact absurd h (by simp)
      · injection h with h1
        rw [← h1]
        exact countWords_trim _
  · split at h
    · -- Jina path (no link following): wordCount counts the stored content
      rw [extractViaJina] at h
      split at h
      · exact absurd h (by simp)
      · rename_i tweet heq
        split at heq
        · exact absurd heq (by simp)
        · split at heq
          · exact absurd heq (by simp)
          · injection heq with h2
            injection h with h1
            rw [← h1, ← h2]
    · -- generic path: wordCount counts the stored content
      rw [extractGeneric] at h
      split at h
      · exact absurd h (by simp)
      · split at h
        · exact absurd h (by simp)
        · injection h with h1
          rw [← h1]

/-- The oracle for C1's counterexample: a tweet whose Jina rendering
contains one qualifying external link, and a generic page behind it. -/
def c1Net : Net :=
  ⟨fun _ => none, fun _ => none,
    fun u =>
      if u = ("https://r.jina.ai/https://x.com/u/status/1").data then
        .resp 200 (("OK").data) (("Hi https://example.com/article").data)
      else if u = ("https://example.com/article").data then
        .resp 200 (("OK").data) (("irrelevant html").data)
      else .netErr (("offline").data),
    fun _ => ("T").data,
    fun _ => ("Linked body text").data⟩

/-- Counterexample to C1 as stated: with `followLinks = true` the combined
tweet + linked-article result stores `wordCount = 2 + 3 = 5`, but its
`content` re-tokenises to 10 words (the `---` separator, the three
`## Linked Article:` header tokens and the linked title add five tokens
that are never counted). -/
theorem C1_wordCount_roundTrip_counterexample :
    extractFromUrl c1Net (("https://x.com/u/status/1").data) true =
      .ok ⟨("Hi https://example.com/article").data,
        ("Hi https://example.com/article\n\n---\n\n## Linked Article: T\n\nLinked body text").data,
        ("https://x.com/u/status/1").data, 5⟩
    ∧ countWords
        (("Hi https://example.com/article\n\n---\n\n## Linked Article: T\n\nLinked body text").data) =
        10 :=
  ⟨by decide, by decide⟩

/-- Witness for the amended C1 at a concrete input: the tweet-only
extraction of the same scenario round-trips (2 words). -/
theorem C1_wordCount_roundTrip_witness :
    countWords
        ((ExtractedContent.mk (("Hi https://example.com/article").data)
          (("Hi https://example.com/article").data)
          (("https://x.com/u/status/1").data) 2).content) =
      (ExtractedContent.mk (("Hi https://example.com/article").data)
        (("Hi https://example.com/article").data)
        (("https://x.com/u/status/1").data) 2).wordCount :=
  C1_wordCount_roundTrip_amended c1Net (("https://x.com/u/status/1").data) _
    (by decide)

/-! ## Claim C8 -/

/-- C6: for a Jina-extracted tweet whose cleaned content has a first
qualifying external link `linkedUrl`: with `followLinks = true` and a
successful one-level extraction of `linkedUrl`, the result's content
contains `"## Linked Article:"` and its `wordCount` is the sum of the two
parts' counts; a failing linked extraction never propagates — the result
degrades to the tweet-only content; and with `followLinks = false` the
content does not contain the header (provided, of course, that the tweet
text itself does not). -/
theorem C6_linked_article :
    ∀ (net : Net) (url stx body linkedUrl : Str),
      isUrlShortener url = false →
      isRawTextUrl (convertGitHubUrl url) = false →
      needsJsRendering (convertGitHubUrl url) = true →
      net.fetch ((("https://r.jina.ai/").data) ++ url) = .resp 200 stx body →
      extractFirstUrl (cleanMarkdown body) = some linkedUrl →
      (∀ linked, extractFromUrlNF net linkedUrl = .ok linked →
          ∃ r, extractFromUrl net url true = .ok r ∧
            containsStr r.content (("## Linked Article:").data) = true ∧
            r.wordCount = countWords (cleanMarkdown body) + linked.wordCount)
      ∧ (∀ e, extractFromUrlNF net linkedUrl = .error e →
          extractFromUrl net url true =
            .ok ⟨jinaTitle body, cleanMarkdown body, url,
              countWords (cleanMarkdown body)⟩)
      ∧ (containsStr (cleanMarkdown body) (("## Linked Article:").data) = false →
          ∀ r, extractFromUrl net url false = .ok r →
            containsStr r.content (("## Linked Article:").data) = false) := by
  intro net url stx body linkedUrl hshort hraw hjs hfetch hfirst
  have hres : resolvedOf net url = url := by
    rw [resolvedOf]
    simp [hshort]
  have hjina : extractViaJina net url =
      .ok ⟨jinaTitle body, cleanMarkdown body, url, countWords (cleanMarkdown body)⟩ := by
    rw [extractViaJina, hfetch]
    simp [statusOk]
  have hpipeT : extractFromUrl net url true =
      followHandler net
        ⟨jinaTitle body, cleanMarkdown body, url, countWords (cleanMarkdown body)⟩ := by
    rw [extractFromUrl]
    simp only [if_true]
    rw [extractFromUrlT, hres]
    simp only [extractDispatch, hraw, hjs, Bool.false_eq_true, if_false, if_true]
    rw [hjina]
  have hpipeNF : extractFromUrl net url false =
      .ok ⟨jinaTitle body, cleanMarkdown body, url, countWords (cleanMarkdown body)⟩ := by
    rw [extractFromUrl]
    simp only [Bool.false_eq_true, if_false]
    rw [extractFromUrlNF, hres]
    simp only [extractDispatch, hraw, hjs, Bool.false_eq_true, if_false, if_true]
    rw [hjina]
  refine ⟨?_, ?_, ?_⟩
  · intro linked hlink
    refine ⟨combineTweetLinked
        ⟨jinaTitle body, cleanMarkdown body, url, countWords (cleanMarkdown body)⟩
        linked, ?_, ?_, ?_⟩
    · rw [hpipeT]
      simp only [followHandler, hfirst, hlink]
    · show containsStr
        (cleanMarkdown body ++ ("\n\n---\n\n## Linked Article: ").data ++
          linked.title ++ ("\n\n").data ++ linked.content) _ = true
      rw [show cleanMarkdown body ++ ("\n\n---\n\n## Linked Article: ").data ++
            linked.title ++ ("\n\n").data ++ linked.content =
          cleanMarkdown body ++ (("\n\n---\n\n## Linked Article: ").data ++
            (linked.title ++ (("\n\n").data ++ linked.content))) by
        simp [List.append_assoc]]
      exact containsStr_append_middle (by decide)
    · rfl
  · intro e herr
    rw [hpipeT]
    simp only [followHandler, hfirst, herr]
  · intro hnc r h
    rw [hpipeNF] at h
    injection h with h1
    rw [← h1]
    exact hnc

/-- The oracle for C6's witness: the scenario of `c1Net` rebuilt for this
claim — a tweet with one qualifying link and a generic article behind
it. -/
def c6Net : Net :=
  ⟨fun _ => none, fun _ => none,
    fun u =>
      if u = ("https://r.jina.ai/https://x.com/u/status/4").data then
        .resp 200 (("OK").data) (("New post https://blog.example.org/entry").data)
      else if u = ("https://blog.example.org/entry").data then
        .resp 200 (("OK").data) (("page html").data)
      else .netErr (("offline").data),
    fun _ => ("Entry").data,
    fun _ => ("Body of the entry").data⟩

/-- Witness for C6 at a concrete input: combined extraction contains the
header and adds up the word counts (3 tweet words + 4 article words). -/
theorem C6_linked_article_witness :
    ∃ r, extractFromUrl c6Net (("https://x.com/u/status/4").data) true = .ok r ∧
      containsStr r.content (("## Linked Article:").data) = true ∧
      r.wordCount =
        countWords (cleanMarkdown (("New post https://blog.example.org/entry").data)) +
          (ExtractedContent.mk (("Entry").data) (("Body of the entry").data)
            (("https://blog.example.org/entry").data) 4).wordCount :=
  (C6_linked_article c6Net (("https://x.com/u/status/4").data) (("OK").data)
      (("New post https://blog.example.org/entry").data)
      (("https://blog.example.org/entry").data)
      (by decide) (by decide) (by decide) (by decide) (by decide)).1
    ⟨("Entry").data, ("Body of the entry").data,
      ("https://blog.example.org/entry").data, 4⟩
    (by decide)

/-! ## Claim C4 -/

/-- C4 (amended): in a non-streaming completion a 429 status raises the
rate-limit error for that model (an error the fallback's classifier
recognises as a rate limit); any other non-200 status raises a completion
error carrying the response text (or `HTTP <status>` when the text is
empty); an `error` field inside a 200 JSON body raises a completion error
carrying the in-band message; on success the content is the first
choice's message content (empty string if absent) and the reported model
is the server-echoed id or else the requested id.  Whether a raised error
is ultimately treated as fatal or as a rate limit is decided by the
message heuristic of `completionWithAutoFree`, not by the branch that
raised it — see the counterexample. -/
theorem C4_completion_classification_amended :
    ∀ (model : Str) (resp : CompletionResp),
      (resp.status = 429 →
        completion model resp =
          .error (("Rate limit exceeded (429) for model ").data ++ model) ∧
        isRateLimitMsg (("Rate limit exceeded (429) for model ").data ++ model) = true)
      ∧ (resp.status ≠ 429 → resp.status ≠ 200 →
          completion model resp =
            .error (("OpenRouter API error: ").data ++
              jsOrStr (some resp.text) (("HTTP ").data ++ natStr resp.status)))
      ∧ (resp.status = 200 → ∀ err, resp.json.error = some err →
          completion model resp = .error (jsonErrMsg err))
      ∧ (resp.status = 200 → resp.json.error = none →
          completion model resp =
            .ok ⟨jsOrStr resp.json.content0 [], jsOrStr resp.json.model model⟩) := by
  intro model resp
  refine ⟨?_, ?_, ?_, ?_⟩
  · intro h429
    constructor
    · rw [completion, if_pos h429]
    · rw [isRateLimitMsg]
      rw [containsStr_append_left
        (show (("429").data : Str) <:+: ("Rate limit exceeded (429) for model ").data
          by decide)]
      rfl
  · intro hn429 hn200
    rw [completion, if_neg (by simpa using hn429), if_pos hn200]
  · intro h200 err herr
    rw [completion, if_neg (by simp [h200]), if_neg (by simp [h200]), herr]
  · intro h200 herr
    rw [completion, if_neg (by simp [h200]), if_neg (by simp [h200]), herr]

/-- The per-model responses of C4's counterexample: model `A` answers 200
with an in-band error whose message is a rate-limit text; model `B`
answers 200 with a normal completion. -/
def c4Responses (m : Str) : CompletionResp :=
  if m = ("A").data then
    ⟨200, [], ⟨some ⟨some (("Rate limit exceeded, retry later").data),
      ("stringified").data⟩, none, none⟩⟩
  else
    ⟨200, [], ⟨none, some (("B").data), some (("summary from B").data)⟩⟩

/-- Counterexample to C4 as stated: the error raised for an `error` field
inside a 2xx JSON body is *not* always classified as fatal — when its
message matches the rate-limit patterns, `completionWithAutoFree` treats
it as a rate limit and continues to the next model instead of propagating
it.  Model A's 200-with-error-body response is retried and model B's
result is returned. -/
theorem C4_completion_classification_counterexample :
    completion (("A").data) (c4Responses (("A").data)) =
      .error (("Rate limit exceeded, retry later").data)
    ∧ isRateLimitMsg (("Rate limit exceeded, retry later").data) = true
    ∧ completionWithAutoFree (fun m => completion m (c4Responses m))
        [("A").data, ("B").data] =
        (.ok ⟨("summary from B").data, ("B").data⟩, [("A").data, ("B").data]) :=
  ⟨by decide, by decide, by decide⟩

/-- Witness for the amended C4 at concrete inputs: a 429 response and a
successful 200 response with an echoed model id. -/
theorem C4_completion_classification_witness :
    (completion (("m/1").data) ⟨429, [], ⟨none, none, none⟩⟩ =
        .error (("Rate limit exceeded (429) for model ").data ++ ("m/1").data) ∧
      isRateLimitMsg (("Rate limit exceeded (429) for model ").data ++ ("m/1").data) = true)
    ∧ completion (("m/1").data)
        ⟨200, [], ⟨none, some (("srv/1").data), some (("text").data)⟩⟩ =
        .ok ⟨jsOrStr (some (("text").data)) [],
          jsOrStr (some (("srv/1").data)) (("m/1").data)⟩ :=
  ⟨(C4_completion_classification_amended (("m/1").data)
      ⟨429, [], ⟨none, none, none⟩⟩).1 (by decide),
    (C4_completion_classification_amended (("m/1").data)
        ⟨200, [], ⟨none, some (("srv/1").data), some (("text").data)⟩⟩).2.2.2
      (by decide) (by decide)⟩

/-! ## Claim C2 -/

/-- The stream of C2's failing input: two content frames `A` and `B`
followed by the terminator; the abort signal fires after the first chunk
has been delivered. -/
def c2Net : StreamNet :=
  ⟨200, [],
    [("data: fA\n").data, ("data: fB\n").data, ("data: [DONE]\n").data],
    fun p =>
      if p = ("fA").data then .val none (some (("A").data))
      else if p = ("fB").data then .val none (some (("B").data))
      else .fail (("Unexpected token d in JSON").data)⟩

/-- C2 (code bug): cancelling the stream after one of two chunks changes
nothing — `LLMService.streamCompletion` neither passes the abort signal to
`fetch` nor consults it in its read loop, so the embedding (like the
source) has no data flow from the signal into the stream.  With the
signal fired after chunk 1, `onStream` is still invoked for chunk 2, and
the call resolves with `cancelled = false` and the full content `"AB"` —
not as a `Cancelled` outcome carrying `"A"`.  The result is the same for
every abort point. -/
theorem C2_cancellation_code_bug :
    executeStreamingSummarize c2Net (("model/x").data) (some 1) =
      (.ok ((("AB").data), false), [("A").data, ("B").data])
    ∧ ∀ abortAfter, executeStreamingSummarize c2Net (("model/x").data) abortAfter =
        executeStreamingSummarize c2Net (("model/x").data) none :=
  ⟨by decide, fun _ => rfl⟩

/-! ## Claim C5 -/

/-- The stream of C5's failing input: a frame that parses as JSON and
carries an `error` field whose message is `"Rate limit hit"`, followed by
a content frame and the terminator. -/
def c5Net : StreamNet :=
  ⟨200, [],
    [("data: errframe\n").data, ("data: fX\n").data, ("data: [DONE]\n").data],
    fun p =>
      if p = ("errframe").data then
        .val (some ⟨some (("Rate limit hit").data), ("stringified").data⟩) none
      else if p = ("fX").data then .val none (some (("X").data))
      else .fail (("Unexpected token d in JSON").data)⟩

/-- A second stream whose error frame's message does contain the
substring `"error"`, showing the abort is guard-dependent. -/
def c5NetB : StreamNet :=
  ⟨200, [],
    [("data: errframe\n").data, ("data: fX\n").data, ("data: [DONE]\n").data],
    fun p =>
      if p = ("errframe").data then
        .val (some ⟨some (("Internal server error").data), ("stringified").data⟩) none
      else if p = ("fX").data then .val none (some (("X").data))
      else .fail (("Unexpected token d in JSON").data)⟩

/-- C5 (code bug): a parsed frame with an `error` field aborts the stream
only when the thrown message happens to contain the substring `"error"` —
the guard `e.message.includes("error")` of the catch block swallows the
rest.  The frame `{error: {message: "Rate limit hit"}}` is thrown and then
silently swallowed: the stream continues, the later chunk `X` is emitted,
and the call resolves successfully, contrary to the claim that every such
frame raises a fatal completion error.  The same stream with message
`"Internal server error"` does abort. -/
theorem C5_error_frame_code_bug :
    streamCompletion c5Net (("model/x").data) =
      (.ok ⟨("X").data, ("model/x").data⟩, [("X").data])
    ∧ containsStr (("Rate limit hit").data) (("error").data) = false
    ∧ streamCompletion c5NetB (("model/x").data) =
        (.error (("Internal server error").data), []) :=
  ⟨by decide, by decide, by decide⟩

end Summarize
